import Mathlib

/-!
Shallow embedding of the `leader` package of the planet repository
(leader-election and key-watch client over an etcd key-value store).

The Go source is embedded faithfully:
* machine integers (`time.Duration`, `uint64` indices, `uint32` flags)
  become `Int`/`Nat`; durations are nanoseconds, as in Go;
* each etcd RPC outcome is supplied by an explicit environment
  (`Except EtcdErr Response` for `Get`/`Set`, a list of outcomes for the
  successive calls a loop makes), so the functions below are pure
  oracle-style translations of the corresponding Go functions;
* goroutine loops (`AddWatch`'s watch loop, `AddVoter`'s tick loop,
  `getFirstValue`'s retry loop) are interpreted over a finite list of
  environment events: exhausting the list means "the loop is still
  running", mirroring an observation window of the real execution;
* the `select` that sends on `valuesC` is modelled as delivering (the
  receiver keeps reading and the close signal does not win that race);
  the close signal is modelled where it changes control flow: the
  `getFirstValue` select, the sentinel propagated through `resetWatch`,
  and `context.Canceled` from `watcher.Next`.
-/

/-- Error codes of the etcd v2 client (`client.ErrorCodeKeyNotFound` etc.). -/
def ErrorCodeKeyNotFound : Nat := 100

/-- `client.ErrorCodeNodeExist`. -/
def ErrorCodeNodeExist : Nat := 105

/-- `client.ErrorCodeEventIndexCleared`. -/
def ErrorCodeEventIndexCleared : Nat := 401

/-- Errors an etcd client call can produce, as the `leader` package
distinguishes them: `context.Canceled`, `*client.ClusterError` (carrying a
list of wrapped errors), `client.Error` (carrying a code), and any other
generic error. -/
inductive EtcdErr where
  | contextCanceled
  | cluster (errs : List EtcdErr) (detail : String)
  | clientErr (code : Nat) (msg : String)
  | other (msg : String)

/-- `err == context.Canceled` . -/
def EtcdErr.isContextCanceled : EtcdErr → Bool
  | .contextCanceled => true
  | _ => false

/-- `_, ok := err.(*client.ClusterError)` . -/
def EtcdErr.isCluster : EtcdErr → Bool
  | .cluster _ _ => true
  | _ => false

/-- `len(cerr.Errors) != 0 && cerr.Errors[0] == context.Canceled` . -/
def EtcdErr.clusterWrapsCanceled : EtcdErr → Bool
  | .cluster (e0 :: _) _ => e0.isContextCanceled
  | _ => false

/-- `cerr, ok := err.(client.Error); ok && cerr.Code == client.ErrorCodeEventIndexCleared` . -/
def EtcdErr.isEventIndexCleared : EtcdErr → Bool
  | .clientErr code _ => code == ErrorCodeEventIndexCleared
  | _ => false

/-- Translation of `leader.IsNotFound`. -/
def IsNotFound : EtcdErr → Bool
  | .clientErr code _ => code == ErrorCodeKeyNotFound
  | _ => false

/-- Translation of `leader.IsAlreadyExist`. -/
def IsAlreadyExist : EtcdErr → Bool
  | .clientErr code _ => code == ErrorCodeNodeExist
  | _ => false

/-- The fields of `client.Node` the `leader` package reads: `Value`,
`ModifiedIndex` and `Expiration` (an absolute time, here in ns). -/
structure Node where
  value : String
  modifiedIndex : Nat
  expiration : Int
deriving Repr, DecidableEq

/-- `client.Response` as used by the package (only `.Node` is read). -/
structure Response where
  node : Node
deriving Repr, DecidableEq

/-- `client.PrevExistType`. -/
inductive PrevExistType where
  | prevIgnore
  | prevNoExist
  | prevExist
deriving Repr, DecidableEq

/-- `client.SetOptions`; zero values as in Go. -/
structure SetOptions where
  prevValue : String := ""
  prevIndex : Nat := 0
  prevExist : PrevExistType := PrevExistType.prevIgnore
  ttl : Int := 0
deriving Repr, DecidableEq

/-- One `api.Set` call performed by the voter, with its arguments. -/
structure SetOp where
  key : String
  value : String
  opts : SetOptions
deriving Repr, DecidableEq

/-- `time.Second` in nanoseconds. -/
def timeSecond : Int := 1000000000

/-- Translation of `Client.elect`.  The store's replies are passed in
explicitly: `getRes` is the outcome of the initial `api.Get`, `createRes`
the outcome of the create-if-not-exists `api.Set` (consulted only if that
call is reached), `renewRes` the outcome of the CAS renewal `api.Set`.
Returns the error `elect` returns (`none` = `nil`; `trace.Wrap` is the
identity here) together with the list of `api.Set` calls performed. -/
def elect (key value : String) (term : Int) (now : Int)
    (getRes : Except EtcdErr Response)
    (createRes renewRes : Except EtcdErr Response) :
    Option EtcdErr × List SetOp :=
  match getRes with
  | .error e =>
    if !IsNotFound e then (some e, [])
    else
      let op : SetOp :=
        ⟨key, value, { ttl := term, prevExist := PrevExistType.prevNoExist }⟩
      match createRes with
      | .error e2 => (some e2, [op])
      | .ok _ => (none, [op])
  | .ok resp =>
    if resp.node.value ≠ value then (none, [])
    else if resp.node.expiration - now > Int.tdiv term 2 then (none, [])
    else
      let op : SetOp :=
        ⟨key, value,
          { ttl := term, prevValue := value, prevIndex := resp.node.modifiedIndex }⟩
      match renewRes with
      | .error e2 => (some e2, [op])
      | .ok _ => (none, [op])

/-- Environment for one voter campaign iteration: the store replies `elect`
observes, and the clock value `l.clock.UtcNow()` at that iteration. -/
structure ElectEnv where
  getRes : Except EtcdErr Response
  createRes : Except EtcdErr Response
  renewRes : Except EtcdErr Response
  now : Int

/-- The body of the goroutine spawned by `Client.AddVoter`: call `elect`
once per tick, log (collect) any error it returns, never stop campaigning.
Interpreted over a finite list of per-tick environments; returns the
`api.Set` calls performed and the errors logged. -/
def voterRun (key value : String) (term : Int) :
    List ElectEnv → List SetOp × List EtcdErr
  | [] => ([], [])
  | env :: rest =>
    let r := elect key value term env.now env.getRes env.createRes env.renewRes
    let rs := voterRun key value term rest
    (r.2 ++ rs.1, r.1.toList ++ rs.2)

/-- Translation of `Client.AddVoter`: the synchronous validation, then the
spawned campaign loop.  The first component is the synchronous return
value (`none` = `nil`). -/
def AddVoter (key value : String) (term : Int) (envs : List ElectEnv) :
    Option String × (List SetOp × List EtcdErr) :=
  if value = "" then (some "voter value for key can not be empty", ([], []))
  else if term < timeSecond then (some "term can not be < 1second", ([], []))
  else (none, voterRun key value term envs)

/-- One iteration of `Client.getFirstValue`'s retry loop, as the
environment sees it: the `api.Get` either succeeds, or fails and then the
`select` is won either by the retry ticker or by the close channel. -/
inductive ProbeStep where
  | getOk (re : Response)
  | getErrTick (e : EtcdErr)
  | getErrClose (e : EtcdErr)

/-- Translation of `Client.getFirstValue`, interpreted over the finite
list of loop iterations observed.  The first component is the function
result: `none` means the loop is still retrying when the observation
ends, `some none` is the `(nil, nil)` close sentinel, `some (some re)`
is a successful `(re, nil)` return.  (As in the source, no iteration can
return a non-nil error.)  The second component collects the errors logged
(`!IsNotFound` only — NotFound is quiet). -/
def getFirstValue : List ProbeStep → Option (Option Response) × List EtcdErr
  | [] => (none, [])
  | .getOk re :: _ => (some (some re), [])
  | .getErrTick e :: rest =>
    let r := getFirstValue rest
    (r.1, (if IsNotFound e then [] else [e]) ++ r.2)
  | .getErrClose e :: _ => (some none, if IsNotFound e then [] else [e])

/-- The `Client` state that `Close` manipulates: the `closed` flag
(a `uint32` driven by compare-and-swap), whether `closeC` has been
closed, and how many times `close(closeC)` has been executed. -/
structure Client where
  closed : Nat
  closeChanClosed : Bool
  closeChanCloseCount : Nat
deriving Repr, DecidableEq

/-- A freshly constructed client (`NewClient`): flag 0, channel open. -/
def newClient : Client := ⟨0, false, 0⟩

/-- Translation of `Client.Close`: CAS `closed` 0→1; only the winning
call closes `closeC`; always returns `nil` (`none`). -/
def Client.Close (s : Client) : Client × Option String :=
  if s.closed = 0 then (⟨1, true, s.closeChanCloseCount + 1⟩, none)
  else (s, none)

/-- N calls to `Close` in sequence.  Concurrent calls are linearizable
because the only shared action is the atomic compare-and-swap on
`closed`, so any interleaving of N concurrent calls is modelled by some
sequential order of N applications. -/
def Client.closeN : Nat → Client → Client × List (Option String)
  | 0, s => (s, [])
  | n + 1, s =>
    let r := s.Close
    let rs := Client.closeN n r.1
    (rs.1, r.2 :: rs.2)

/-- Modelled from the spec: `utils.Backoff` lives in `lib/utils`, which is
not under `src/`.  Spec §4.1: successive delays bounded by
`[Initial, Max]`, doubling on each call; `Delay` also advances the
exposed `Tries` counter; `Reset` returns the counter to zero. -/
structure Backoff where
  initial : Nat
  maxDelay : Nat
  tries : Nat
deriving Repr, DecidableEq

/-- Modelled from the spec: `Backoff.Delay` returns the next delay
(`Initial`, `2·Initial`, … capped at `Max`) and increments `Tries`. -/
def Backoff.delay (b : Backoff) : Nat × Backoff :=
  (min (b.initial * 2 ^ b.tries) b.maxDelay, ⟨b.initial, b.maxDelay, b.tries + 1⟩)

/-- Modelled from the spec: `Backoff.Reset`. -/
def Backoff.reset (b : Backoff) : Backoff := ⟨b.initial, b.maxDelay, 0⟩

/-- The backoff `AddWatch` constructs: `Initial: 50ms, Max: 10s` (ns). -/
def watchBackoff : Backoff := ⟨50000000, 10000000000, 0⟩

/-- Outcome of one `resetWatch` call, i.e. of the `getFirstValue` it
performs: a snapshot `(re, nil)`, the close sentinel `(nil, nil)`, or a
non-nil error `(nil, err)`.  The last constructor mirrors `resetWatch`'s
error branch; `getFirstValue` as written never produces it. -/
inductive ProbeOutcome where
  | got (re : Response)
  | closedSentinel
  | failed (e : EtcdErr)

/-- Outcome of one `watcher.Next(ctx)` call. -/
inductive NextOutcome where
  | ok (re : Response)
  | err (e : EtcdErr)

/-- Observable actions of the watch loop that the claims talk about:
sleeping a backoff delay, re-creating the watcher at an index
(the tail of `resetWatch`), sending a value on `valuesC`, and logging an
unknown (`unexpected watch`) error. -/
inductive Act where
  | sleep (d : Nat)
  | resetW (afterIndex : Nat)
  | send (v : String)
  | logUnknown (e : EtcdErr)

/-- The values sent on `valuesC`, in order. -/
def sends (acts : List Act) : List String :=
  acts.filterMap fun a =>
    match a with
    | .send v => some v
    | _ => none

/-- Whether an action is a backoff sleep. -/
def Act.isSleep : Act → Bool
  | .sleep _ => true
  | _ => false

/-- `true` when no action in the list is a sleep. -/
def noSleepActs (l : List Act) : Bool := l.all fun a => !a.isSleep

/-- How the watch loop ends within the observation window. -/
inductive LoopEnd where
  | running
  | returned
  | panicked
deriving Repr, DecidableEq

/-- State carried between iterations of the watch loop: the backoff, the
outcomes remaining for future `resetWatch` calls, and the index the
current watcher was created at (`AfterIndex`). -/
structure WState where
  backoff : Backoff
  snaps : List ProbeOutcome
  cursor : Nat

/-- Result of one loop iteration: continue with accumulated actions and a
new state, or stop (`return`, nil-dereference panic, or observation end
while blocked inside `getFirstValue`). -/
inductive StepRes where
  | cont (acts : List Act) (s : WState)
  | stop (acts : List Act) (e : LoopEnd)

/-- The actions of a step result. -/
def StepRes.acts : StepRes → List Act
  | .cont a _ => a
  | .stop a _ => a

/-- The error dispatch order of the watch loop, exactly as in the source:
`context.Canceled` first, then `*client.ClusterError` (terminating when
its first wrapped error is `context.Canceled`), then
`client.Error` with code `EventIndexCleared`, then everything else. -/
inductive ErrClass where
  | canceled
  | clusterCanceled
  | clusterOther
  | indexCleared
  | unknown
deriving Repr, DecidableEq

/-- Classify a `watcher.Next` error the way the loop's if-chain does. -/
def classifyWatchErr (e : EtcdErr) : ErrClass :=
  if e.isContextCanceled then ErrClass.canceled
  else if e.isCluster then
    (if e.clusterWrapsCanceled then ErrClass.clusterCanceled else ErrClass.clusterOther)
  else if e.isEventIndexCleared then ErrClass.indexCleared
  else ErrClass.unknown

/-- One iteration of the `for` loop in `AddWatch`, given the outcome of
this iteration's `watcher.Next` call.  Mirrors the source line by line:
* success with empty value → skip (`continue`), backoff untouched;
* success with non-empty value → `backoff.Reset()`, send the value;
* any error → `backoff.Delay()`, sleep it only when `Tries > 1`, then the
  if-chain: canceled → return; cluster wrapping canceled → return;
  other cluster error → `continue` with the same watcher;
  `EventIndexCleared` → `resetWatch()` and, when it returns nil, fall
  through to the send (on the close sentinel `re` is nil, so the send
  dereferences nil and panics);
  anything else → log, `resetWatch()` (result ignored) once `Tries > 10`,
  `continue`. -/
def watchStep (n : NextOutcome) (s : WState) : StepRes :=
  match n with
  | .ok re =>
    if re.node.value = "" then .cont [] s
    else .cont [Act.send re.node.value] ⟨s.backoff.reset, s.snaps, s.cursor⟩
  | .err e =>
    let d := (s.backoff.delay).1
    let b := (s.backoff.delay).2
    let pre : List Act := if 1 < b.tries then [Act.sleep d] else []
    match classifyWatchErr e with
    | .canceled => .stop pre .returned
    | .clusterCanceled => .stop pre .returned
    | .clusterOther => .cont pre ⟨b, s.snaps, s.cursor⟩
    | .indexCleared =>
      match s.snaps with
      | [] => .stop pre .running
      | ProbeOutcome.got re :: srest =>
        .cont (pre ++ [Act.resetW re.node.modifiedIndex, Act.send re.node.value])
          ⟨b, srest, re.node.modifiedIndex⟩
      | ProbeOutcome.closedSentinel :: _ => .stop pre .panicked
      | ProbeOutcome.failed _ :: srest => .cont pre ⟨b, srest, s.cursor⟩
    | .unknown =>
      if 10 < b.tries then
        match s.snaps with
        | [] => .stop (pre ++ [Act.logUnknown e]) .running
        | ProbeOutcome.got re :: srest =>
          .cont (pre ++ [Act.logUnknown e, Act.resetW re.node.modifiedIndex])
            ⟨b, srest, re.node.modifiedIndex⟩
        | ProbeOutcome.closedSentinel :: srest =>
          .cont (pre ++ [Act.logUnknown e]) ⟨b, srest, s.cursor⟩
        | ProbeOutcome.failed _ :: srest =>
          .cont (pre ++ [Act.logUnknown e]) ⟨b, srest, s.cursor⟩
      else .cont (pre ++ [Act.logUnknown e]) ⟨b, s.snaps, s.cursor⟩

/-- The watch loop, iterated over the observed `watcher.Next` outcomes. -/
def watchIter : List NextOutcome → WState → List Act × LoopEnd
  | [], _ => ([], .running)
  | n :: rest, s =>
    match watchStep n s with
    | .cont acts s2 =>
      let r := watchIter rest s2
      (acts ++ r.1, r.2)
    | .stop acts e => (acts, e)

/-- Translation of the goroutine body of `Client.AddWatch`: the initial
`resetWatch` (whose snapshot seeds the watcher at
`AfterIndex = re.Node.ModifiedIndex` — note no send happens here), then
the loop.  On the close sentinel the initial `resetWatch` returns a nil
error, so the loop is entered with a nil watcher and the first
`watcher.Next` panics; on a probe error the goroutine returns. -/
def addWatchRun (nexts : List NextOutcome) (snaps : List ProbeOutcome) :
    List Act × LoopEnd :=
  match snaps with
  | [] => ([], .running)
  | ProbeOutcome.got re0 :: srest =>
    let r := watchIter nexts ⟨watchBackoff, srest, re0.node.modifiedIndex⟩
    (Act.resetW re0.node.modifiedIndex :: r.1, r.2)
  | ProbeOutcome.closedSentinel :: _ => ([], .panicked)
  | ProbeOutcome.failed _ :: _ => ([], .returned)

/-! ## Helper lemmas -/

/-- Once the flag is set, further `Close` calls are pure no-ops. -/
theorem closeN_of_closed (n : Nat) :
    ∀ s : Client, s.closed = 1 → Client.closeN n s = (s, List.replicate n none) := by
  induction n with
  | zero => intro s h; rfl
  | succ m ih =>
    intro s h
    have hc : s.Close = (s, none) := by
      unfold Client.Close
      simp [h]
    simp [Client.closeN, hc, ih s h, List.replicate]

/-! ## Claims -/

/-- C1: the spec and the source's own comments promise that the first
value sent on `valuesC` is the current value obtained by the
`getFirstValue` snapshot; but the loop's first send only happens after
`watcher.Next`, so with current value `"A"` (rev 5) and a subsequent
write `"B"` (rev 6) the first emission is `"B"`, not `"A"`: the initial
snapshot is used only to position the watcher and is never sent. -/
theorem addWatch_first_emission_bug :
    addWatchRun [NextOutcome.ok ⟨⟨"B", 6, 0⟩⟩] [ProbeOutcome.got ⟨⟨"A", 5, 0⟩⟩] =
      ([Act.resetW 5, Act.send "B"], LoopEnd.running) ∧
    (sends (addWatchRun [NextOutcome.ok ⟨⟨"B", 6, 0⟩⟩]
        [ProbeOutcome.got ⟨⟨"A", 5, 0⟩⟩]).1).head? = some "B" ∧
    "B" ≠ "A" :=
  ⟨rfl, rfl, by decide⟩

/-- C2: a voter performs no write when the key holds a different value,
and every write it performs is either a create-if-not-exists or a CAS
on `(prevValue = its own value, prevIndex = the observed ModifiedIndex)`. -/
theorem elect_writes_guarded :
    ∀ key value term now getRes createRes renewRes,
      (∀ resp, getRes = Except.ok resp → resp.node.value ≠ value →
        (elect key value term now getRes createRes renewRes).2 = []) ∧
      (∀ w, w ∈ (elect key value term now getRes createRes renewRes).2 →
        w.key = key ∧ w.value = value ∧
        (w.opts.prevExist = PrevExistType.prevNoExist ∨
          ∃ resp, getRes = Except.ok resp ∧ w.opts.prevValue = value ∧
            w.opts.prevIndex = resp.node.modifiedIndex)) := by
  intro key value term now getRes createRes renewRes
  constructor
  · intro resp hget hne
    subst hget
    simp [elect, hne]
  · intro w hw
    match getRes with
    | .error e =>
      by_cases hnf : IsNotFound e = true
      · simp only [elect, hnf, Bool.not_true, Bool.false_eq_true, if_false] at hw
        match createRes with
        | .error e2 =>
          simp at hw
          subst hw
          exact ⟨rfl, rfl, Or.inl rfl⟩
        | .ok r =>
          simp at hw
          subst hw
          exact ⟨rfl, rfl, Or.inl rfl⟩
      · simp only [elect, hnf] at hw
        simp at hw
    | .ok resp =>
      by_cases hv : resp.node.value = value
      · by_cases hexp : resp.node.expiration - now > Int.tdiv term 2
        · simp [elect, hv, hexp] at hw
        · simp only [elect, hv, hexp, ne_eq, not_true_eq_false, if_false, if_neg hexp] at hw
          match renewRes with
          | .error e2 =>
            simp at hw
            subst hw
            exact ⟨rfl, rfl, Or.inr ⟨resp, rfl, rfl, rfl⟩⟩
          | .ok r =>
            simp at hw
            subst hw
            exact ⟨rfl, rfl, Or.inr ⟨resp, rfl, rfl, rfl⟩⟩
      · simp [elect, hv] at hw

/-- C2 witness: with the key held by `"other"`, the voter `"me"` writes
nothing. -/
theorem elect_writes_guarded_witness :
    (Except.ok ⟨⟨"other", 3, 0⟩⟩ : Except EtcdErr Response) =
      Except.ok ⟨⟨"other", 3, 0⟩⟩ ∧
    ("other" : String) ≠ "me" ∧
    (elect "k" "me" 5000000000 0 (Except.ok ⟨⟨"other", 3, 0⟩⟩)
      (Except.ok ⟨⟨"me", 4, 0⟩⟩) (Except.ok ⟨⟨"me", 4, 0⟩⟩)).2 = [] :=
  ⟨rfl, by decide,
    (elect_writes_guarded "k" "me" 5000000000 0 _ _ _).1 ⟨⟨"other", 3, 0⟩⟩ rfl (by decide)⟩

/-- C3: starting from a fresh client, any `n ≥ 1` calls to `Close` close
the cancellation channel exactly once, every call returns `nil`, and a
further `Close` on the resulting state has no side effects. -/
theorem close_idempotent (n : Nat) (h : 1 ≤ n) :
    (Client.closeN n newClient).1 = ⟨1, true, 1⟩ ∧
    (Client.closeN n newClient).2 = List.replicate n none ∧
    ((Client.closeN n newClient).1).Close = ((Client.closeN n newClient).1, none) := by
  obtain ⟨m, rfl⟩ : ∃ m, n = m + 1 := ⟨n - 1, by omega⟩
  have h1 : Client.Close newClient = (⟨1, true, 1⟩, none) := rfl
  have h2 := closeN_of_closed m ⟨1, true, 1⟩ rfl
  have hrun : Client.closeN (m + 1) newClient =
      (⟨1, true, 1⟩, List.replicate (m + 1) none) := by
    simp [Client.closeN, h1, h2, List.replicate]
  refine ⟨by rw [hrun], by rw [hrun], by rw [hrun]; rfl⟩

/-- C3 witness at `n = 3`. -/
theorem close_idempotent_witness :
    1 ≤ 3 ∧
    ((Client.closeN 3 newClient).1 = ⟨1, true, 1⟩ ∧
     (Client.closeN 3 newClient).2 = List.replicate 3 none ∧
     ((Client.closeN 3 newClient).1).Close = ((Client.closeN 3 newClient).1, none)) :=
  ⟨by decide, close_idempotent 3 (by decide)⟩

/-- C5 counterexample: when the `Get` reports NotFound and the
create-if-not-exists `Set` fails with NodeExists, `elect` returns that
error (`trace.Wrap(err)`), i.e. it does surface the NodeExists CAS
failure as an error. -/
theorem elect_returns_node_exists_error :
    (elect "k" "v" 5000000000 0
      (Except.error (EtcdErr.clientErr ErrorCodeKeyNotFound "not found"))
      (Except.error (EtcdErr.clientErr ErrorCodeNodeExist "exists"))
      (Except.ok ⟨⟨"v", 1, 0⟩⟩)).1 =
      some (EtcdErr.clientErr ErrorCodeNodeExist "exists") ∧
    ((elect "k" "v" 5000000000 0
      (Except.error (EtcdErr.clientErr ErrorCodeKeyNotFound "not found"))
      (Except.error (EtcdErr.clientErr ErrorCodeNodeExist "exists"))
      (Except.ok ⟨⟨"v", 1, 0⟩⟩)).1).isSome = true :=
  ⟨rfl, rfl⟩

/-- C5 amended: NotFound on the first-value probe causes a quiet retry
(no log, same result); NodeExists on the create CAS makes `elect` return
the error, which the voter loop merely logs and keeps campaigning on the
following ticks, so it never reaches the `AddVoter` caller. -/
theorem expected_outcomes_policy :
    (∀ e rest, IsNotFound e = true →
      getFirstValue (ProbeStep.getErrTick e :: rest) = getFirstValue rest) ∧
    (∀ key value term now e ec renewRes rest,
      IsNotFound e = true → IsAlreadyExist ec = true →
      (elect key value term now (Except.error e) (Except.error ec) renewRes).1 = some ec ∧
      voterRun key value term (⟨Except.error e, Except.error ec, renewRes, now⟩ :: rest) =
        ((elect key value term now (Except.error e) (Except.error ec) renewRes).2 ++
          (voterRun key value term rest).1,
         ec :: (voterRun key value term rest).2)) := by
  constructor
  · intro e rest h
    simp [getFirstValue, h]
  · intro key value term now e ec renewRes rest hnf hae
    have he : elect key value term now (Except.error e) (Except.error ec) renewRes =
        (some ec, [⟨key, value, { ttl := term, prevExist := PrevExistType.prevNoExist }⟩]) := by
      simp [elect, hnf]
    refine ⟨by rw [he], ?_⟩
    simp [voterRun, he]

/-- C5 witness: concrete NotFound probe error and NodeExists CAS error. -/
theorem expected_outcomes_policy_witness :
    IsNotFound (EtcdErr.clientErr ErrorCodeKeyNotFound "nf") = true ∧
    IsAlreadyExist (EtcdErr.clientErr ErrorCodeNodeExist "ex") = true ∧
    ((elect "k" "v" 5000000000 7
        (Except.error (EtcdErr.clientErr ErrorCodeKeyNotFound "nf"))
        (Except.error (EtcdErr.clientErr ErrorCodeNodeExist "ex"))
        (Except.ok ⟨⟨"v", 1, 0⟩⟩)).1 = some (EtcdErr.clientErr ErrorCodeNodeExist "ex") ∧
     voterRun "k" "v" 5000000000
        (⟨Except.error (EtcdErr.clientErr ErrorCodeKeyNotFound "nf"),
          Except.error (EtcdErr.clientErr ErrorCodeNodeExist "ex"),
          Except.ok ⟨⟨"v", 1, 0⟩⟩, 7⟩ :: []) =
        ((elect "k" "v" 5000000000 7
            (Except.error (EtcdErr.clientErr ErrorCodeKeyNotFound "nf"))
            (Except.error (EtcdErr.clientErr ErrorCodeNodeExist "ex"))
            (Except.ok ⟨⟨"v", 1, 0⟩⟩)).2 ++ (voterRun "k" "v" 5000000000 []).1,
         (EtcdErr.clientErr ErrorCodeNodeExist "ex") :: (voterRun "k" "v" 5000000000 []).2)) :=
  ⟨rfl, rfl, expected_outcomes_policy.2 "k" "v" 5000000000 7 _ _ _ [] rfl rfl⟩

/-- C6: `AddVoter` returns `nil` synchronously exactly when the value is
non-empty and the term is at least one second, regardless of anything the
store later does. -/
theorem addVoter_sync_validation :
    ∀ key value term envs,
      (AddVoter key value term envs).1 = none ↔
        (value ≠ "" ∧ timeSecond ≤ term) := by
  intro key value term envs
  by_cases hv : value = ""
  · simp [AddVoter, hv]
  · by_cases ht : term < timeSecond
    · simp [AddVoter, hv, ht]
    · simp [AddVoter, hv, ht]
      omega

/-- C7: when the key holds the voter's own value and the remaining TTL
exceeds `term/2`, `elect` performs no store write and returns `nil`. -/
theorem elect_ttl_gate_no_write :
    ∀ key value term now (resp : Response) createRes renewRes,
      resp.node.value = value →
      resp.node.expiration - now > Int.tdiv term 2 →
      elect key value term now (Except.ok resp) createRes renewRes = (none, []) := by
  intro key value term now resp createRes renewRes hv hexp
  simp [elect, hv, hexp]

/-- C7 witness: lease for `"v"` expiring 10s from now, term 5s. -/
theorem elect_ttl_gate_no_write_witness :
    (⟨⟨"v", 3, 10000000000⟩⟩ : Response).node.value = "v" ∧
    (⟨⟨"v", 3, 10000000000⟩⟩ : Response).node.expiration - 0 > Int.tdiv 5000000000 2 ∧
    elect "k" "v" 5000000000 0 (Except.ok ⟨⟨"v", 3, 10000000000⟩⟩)
      (Except.ok ⟨⟨"v", 4, 0⟩⟩) (Except.ok ⟨⟨"v", 4, 0⟩⟩) = (none, []) :=
  ⟨rfl, by decide,
    elect_ttl_gate_no_write "k" "v" 5000000000 0 _ _ _ rfl (by decide)⟩

/-- C9: `getFirstValue` returns the `(nil, nil)` sentinel when the close
signal wins the select; it returns a non-nil response only for a
successful `Get`; a failed `Get` followed by a tick retries, logging the
error exactly when it is not NotFound. -/
theorem getFirstValue_contract :
    (∀ e rest, (getFirstValue (ProbeStep.getErrClose e :: rest)).1 = some none) ∧
    (∀ steps re, (getFirstValue steps).1 = some (some re) → ProbeStep.getOk re ∈ steps) ∧
    (∀ e rest,
      (getFirstValue (ProbeStep.getErrTick e :: rest)).1 = (getFirstValue rest).1 ∧
      (IsNotFound e = true →
        (getFirstValue (ProbeStep.getErrTick e :: rest)).2 = (getFirstValue rest).2) ∧
      (IsNotFound e = false →
        (getFirstValue (ProbeStep.getErrTick e :: rest)).2 =
          e :: (getFirstValue rest).2)) := by
  refine ⟨fun e rest => rfl, ?_, ?_⟩
  · intro steps
    induction steps with
    | nil => intro re h; simp [getFirstValue] at h
    | cons s rest ih =>
      intro re h
      match s with
      | .getOk re2 =>
        simp only [getFirstValue, Option.some.injEq] at h
        rw [h]
        exact List.mem_cons_self _ _
      | .getErrTick e =>
        simp only [getFirstValue] at h
        exact List.mem_cons_of_mem _ (ih re h)
      | .getErrClose e =>
        simp [getFirstValue] at h
  · intro e rest
    refine ⟨rfl, fun h => ?_, fun h => ?_⟩ <;> simp [getFirstValue, h]

/-- C9 witness: close sentinel, and a logged generic error on retry. -/
theorem getFirstValue_contract_witness :
    (getFirstValue [ProbeStep.getErrClose (EtcdErr.other "x")]).1 = some none ∧
    IsNotFound (EtcdErr.other "y") = false ∧
    (getFirstValue [ProbeStep.getErrTick (EtcdErr.other "y")]).2 =
      (EtcdErr.other "y") :: (getFirstValue ([] : List ProbeStep)).2 :=
  ⟨getFirstValue_contract.1 (EtcdErr.other "x") [], rfl,
    ((getFirstValue_contract.2.2 (EtcdErr.other "y") []).2.2) rfl⟩

/-- `sends` distributes over append. -/
theorem sends_append (a b : List Act) : sends (a ++ b) = sends a ++ sends b := by
  simp [sends]

/-- The backoff-sleep prefix of an error iteration contains no send. -/
theorem sends_sleepPre (c : Prop) [Decidable c] (d : Nat) :
    sends (if c then [Act.sleep d] else []) = [] := by
  split <;> rfl

/-- No send hides in the sleep prefix of an error iteration. -/
theorem send_not_mem_sleepPre {v : String} {c : Prop} [Decidable c] {d : Nat} :
    Act.send v ∉ (if c then [Act.sleep d] else []) := by
  split <;> simp

/-- An `EventIndexCleared` client error is dispatched to the
reset-watch branch. -/
theorem classify_indexCleared (m : String) :
    classifyWatchErr (EtcdErr.clientErr ErrorCodeEventIndexCleared m) =
      ErrClass.indexCleared := rfl

/-- Step equation: `EventIndexCleared` with a successful re-snapshot
falls through to the send of the snapshot value. -/
theorem watchStep_indexCleared_got (m : String) (s : WState) (re2 : Response)
    (srest : List ProbeOutcome) (hs : s.snaps = ProbeOutcome.got re2 :: srest) :
    watchStep (NextOutcome.err (EtcdErr.clientErr ErrorCodeEventIndexCleared m)) s =
      StepRes.cont
        ((if 1 < (s.backoff.delay).2.tries then [Act.sleep (s.backoff.delay).1] else []) ++
          [Act.resetW re2.node.modifiedIndex, Act.send re2.node.value])
        ⟨(s.backoff.delay).2, srest, re2.node.modifiedIndex⟩ := by
  simp only [watchStep, classify_indexCleared, hs]

/-- Step equation: `EventIndexCleared` with a failed re-snapshot
`continue`s without sending. -/
theorem watchStep_indexCleared_failed (m : String) (s : WState) (e2 : EtcdErr)
    (srest : List ProbeOutcome) (hs : s.snaps = ProbeOutcome.failed e2 :: srest) :
    watchStep (NextOutcome.err (EtcdErr.clientErr ErrorCodeEventIndexCleared m)) s =
      StepRes.cont
        (if 1 < (s.backoff.delay).2.tries then [Act.sleep (s.backoff.delay).1] else [])
        ⟨(s.backoff.delay).2, srest, s.cursor⟩ := by
  simp only [watchStep, classify_indexCleared, hs]

/-- Any value a single step sends is non-empty or is the current value of
a snapshot available to the step. -/
theorem watchStep_send_sound (n : NextOutcome) (s : WState) (v : String)
    (hv : Act.send v ∈ (watchStep n s).acts) :
    v ≠ "" ∨ ∃ re, ProbeOutcome.got re ∈ s.snaps ∧ re.node.value = v := by
  cases n with
  | ok re =>
    by_cases h : re.node.value = ""
    · simp [watchStep, h, StepRes.acts] at hv
    · simp [watchStep, h, StepRes.acts] at hv
      rw [hv]
      exact Or.inl h
  | err e =>
    rcases hcl : classifyWatchErr e with _ | _ | _ | _ | _
    · simp only [watchStep, hcl, StepRes.acts] at hv
      exact absurd hv send_not_mem_sleepPre
    · simp only [watchStep, hcl, StepRes.acts] at hv
      exact absurd hv send_not_mem_sleepPre
    · simp only [watchStep, hcl, StepRes.acts] at hv
      exact absurd hv send_not_mem_sleepPre
    · rcases hsn : s.snaps with _ | ⟨p, srest⟩
      · simp only [watchStep, hcl, hsn, StepRes.acts] at hv
        exact absurd hv send_not_mem_sleepPre
      · cases p with
        | got re2 =>
          simp only [watchStep, hcl, hsn, StepRes.acts] at hv
          rcases List.mem_append.mp hv with h | h
          · exact absurd h send_not_mem_sleepPre
          · simp at h
            exact Or.inr ⟨re2, by simp [hsn], h.symm⟩
        | closedSentinel =>
          simp only [watchStep, hcl, hsn, StepRes.acts] at hv
          exact absurd hv send_not_mem_sleepPre
        | failed e2 =>
          simp only [watchStep, hcl, hsn, StepRes.acts] at hv
          exact absurd hv send_not_mem_sleepPre
    · simp only [watchStep, hcl, StepRes.acts] at hv
      by_cases h10 : 10 < (s.backoff.delay).2.tries
      · simp only [if_pos h10] at hv
        rcases hsn : s.snaps with _ | ⟨p, srest⟩ <;> rw [hsn] at hv
        · rcases List.mem_append.mp hv with h | h
          · exact absurd h send_not_mem_sleepPre
          · simp at h
        · cases p <;>
          · rcases List.mem_append.mp hv with h | h
            · exact absurd h send_not_mem_sleepPre
            · simp at h
      · simp only [if_neg h10] at hv
        rcases List.mem_append.mp hv with h | h
        · exact absurd h send_not_mem_sleepPre
        · simp at h

/-- A continuing step only ever consumes snapshots from the front:
whatever probe outcome remains available afterwards was available
before. -/
theorem watchStep_snaps_mono (n : NextOutcome) (s : WState) (acts : List Act)
    (s2 : WState) (h : watchStep n s = StepRes.cont acts s2) :
    ∀ p, p ∈ s2.snaps → p ∈ s.snaps := by
  cases n with
  | ok re =>
    by_cases hval : re.node.value = ""
    · simp only [watchStep, hval, if_pos] at h
      cases h
      exact fun p hp => hp
    · simp only [watchStep, hval, if_neg, ite_false] at h
      cases h
      exact fun p hp => hp
  | err e =>
    rcases hcl : classifyWatchErr e with _ | _ | _ | _ | _ <;>
      simp only [watchStep, hcl] at h
    · exact nomatch h
    · exact nomatch h
    · cases h
      exact fun p hp => hp
    · rcases hsn : s.snaps with _ | ⟨p0, srest⟩ <;> rw [hsn] at h
      · exact nomatch h
      · cases p0 with
        | got re2 =>
          cases h
          intro p hp
          exact List.mem_cons_of_mem _ hp
        | closedSentinel => exact nomatch h
        | failed e2 =>
          cases h
          intro p hp
          exact List.mem_cons_of_mem _ hp
    · by_cases h10 : 10 < (s.backoff.delay).2.tries
      · rw [if_pos h10] at h
        rcases hsn : s.snaps with _ | ⟨p0, srest⟩ <;> rw [hsn] at h
        · exact nomatch h
        · cases p0 with
          | got re2 =>
            cases h
            intro p hp
            exact List.mem_cons_of_mem _ hp
          | closedSentinel =>
            cases h
            intro p hp
            exact List.mem_cons_of_mem _ hp
          | failed e2 =>
            cases h
            intro p hp
            exact List.mem_cons_of_mem _ hp
      · rw [if_neg h10] at h
        cases h
        exact fun p hp => hp

/-- Step equation: unknown error while the try counter has not yet
exceeded the re-snapshot threshold. -/
theorem watchStep_unknown_le10 (e : EtcdErr) (s : WState)
    (hcl : classifyWatchErr e = ErrClass.unknown)
    (h10 : ¬ 10 < s.backoff.tries + 1) :
    watchStep (NextOutcome.err e) s =
      StepRes.cont
        ((if 1 < (s.backoff.delay).2.tries then [Act.sleep (s.backoff.delay).1] else []) ++
          [Act.logUnknown e])
        ⟨(s.backoff.delay).2, s.snaps, s.cursor⟩ := by
  simp only [watchStep, hcl]
  rw [if_neg (show ¬ 10 < (s.backoff.delay).2.tries from h10)]

/-- Step equation: unknown error past the threshold with a snapshot
available forces the re-snapshot (whose result is discarded). -/
theorem watchStep_unknown_gt10_got (e : EtcdErr) (s : WState) (re2 : Response)
    (srest : List ProbeOutcome)
    (hcl : classifyWatchErr e = ErrClass.unknown)
    (h10 : 10 < s.backoff.tries + 1)
    (hs : s.snaps = ProbeOutcome.got re2 :: srest) :
    watchStep (NextOutcome.err e) s =
      StepRes.cont
        ((if 1 < (s.backoff.delay).2.tries then [Act.sleep (s.backoff.delay).1] else []) ++
          [Act.logUnknown e, Act.resetW re2.node.modifiedIndex])
        ⟨(s.backoff.delay).2, srest, re2.node.modifiedIndex⟩ := by
  simp only [watchStep, hcl, hs]
  rw [if_pos (show 10 < (s.backoff.delay).2.tries from h10)]

/-- Running a block of unknown errors that keeps the try counter at or
below the threshold performs no re-snapshot and only advances the
counter, so membership in the remainder of the run lifts over the
block. -/
theorem watchIter_unknown_skip :
    ∀ (es : List EtcdErr) (s : WState) (more : List NextOutcome) (a : Act),
      (∀ e ∈ es, classifyWatchErr e = ErrClass.unknown) →
      s.backoff.tries + es.length ≤ 10 →
      a ∈ (watchIter more
        ⟨⟨s.backoff.initial, s.backoff.maxDelay, s.backoff.tries + es.length⟩,
          s.snaps, s.cursor⟩).1 →
      a ∈ (watchIter (es.map NextOutcome.err ++ more) s).1 := by
  intro es
  induction es with
  | nil =>
    intro s more a _ _ hmem
    exact hmem
  | cons e es ih =>
    intro s more a hall hle hmem
    have hce : classifyWatchErr e = ErrClass.unknown := hall e (List.mem_cons_self _ _)
    have hle2 : s.backoff.tries + (es.length + 1) ≤ 10 := by simpa using hle
    have hstep := watchStep_unknown_le10 e s hce (by omega)
    simp only [List.map_cons, List.cons_append, watchIter, hstep]
    apply List.mem_append.mpr
    right
    apply ih ⟨(s.backoff.delay).2, s.snaps, s.cursor⟩ more a
      (fun e2 he2 => hall e2 (List.mem_cons_of_mem _ he2))
      (by simp only [Backoff.delay]; omega)
    simp only [List.length_cons] at hmem
    have heq : s.backoff.tries + (es.length + 1) = s.backoff.tries + 1 + es.length := by
      omega
    rw [heq] at hmem
    exact hmem

/-- C4 counterexample: the very first unknown error after a backoff reset
is logged but NOT slept on — the loop sleeps only when `backoff.Tries > 1`,
so "logs it and sleeps a backoff delay" fails at this input. -/
theorem watch_unknown_first_error_no_sleep :
    (watchIter [NextOutcome.err (EtcdErr.other "boom")] ⟨watchBackoff, [], 0⟩).1 =
      [Act.logUnknown (EtcdErr.other "boom")] ∧
    noSleepActs
      (watchIter [NextOutcome.err (EtcdErr.other "boom")] ⟨watchBackoff, [], 0⟩).1 =
      true :=
  ⟨rfl, rfl⟩

/-- C4 amended: an unknown `watcher.Next` error is always logged; it is
slept on except when it is the first error since the last backoff reset;
and eleven consecutive unknown errors from a fresh backoff force a full
re-snapshot — the `FirstValue` probe is re-run and the watch re-created
at the snapshot's revision. -/
theorem watch_unknown_error_policy :
    (∀ (e : EtcdErr) (s : WState), classifyWatchErr e = ErrClass.unknown →
      Act.logUnknown e ∈ (watchStep (NextOutcome.err e) s).acts ∧
      (s.backoff.tries = 0 →
        noSleepActs (watchStep (NextOutcome.err e) s).acts = true) ∧
      (1 ≤ s.backoff.tries →
        Act.sleep (s.backoff.delay).1 ∈ (watchStep (NextOutcome.err e) s).acts)) ∧
    (∀ (es : List EtcdErr) (elast : EtcdErr) (re2 : Response) (bi bm c : Nat)
        (srest : List ProbeOutcome) (rest : List NextOutcome),
      es.length = 10 →
      (∀ e ∈ es, classifyWatchErr e = ErrClass.unknown) →
      classifyWatchErr elast = ErrClass.unknown →
      Act.resetW re2.node.modifiedIndex ∈
        (watchIter ((es ++ [elast]).map NextOutcome.err ++ rest)
          ⟨⟨bi, bm, 0⟩, ProbeOutcome.got re2 :: srest, c⟩).1) := by
  constructor
  · intro e s hcl
    refine ⟨?_, ?_, ?_⟩
    · by_cases h10 : 10 < (s.backoff.delay).2.tries
      · rcases hsn : s.snaps with _ | ⟨p, srest⟩
        · simp [watchStep, hcl, hsn, if_pos h10, StepRes.acts]
        · cases p <;> simp [watchStep, hcl, hsn, if_pos h10, StepRes.acts]
      · simp [watchStep, hcl, if_neg h10, StepRes.acts]
    · intro h0
      have h10 : ¬ 10 < s.backoff.tries + 1 := by omega
      rw [watchStep_unknown_le10 e s hcl h10]
      simp only [StepRes.acts]
      have hpre : ¬ 1 < (s.backoff.delay).2.tries := by
        simp only [Backoff.delay]
        omega
      rw [if_neg hpre]
      rfl
    · intro h1
      have hpre : 1 < (s.backoff.delay).2.tries := by
        simp only [Backoff.delay]
        omega
      by_cases h10 : 10 < (s.backoff.delay).2.tries
      · rcases hsn : s.snaps with _ | ⟨p, srest⟩
        · simp [watchStep, hcl, hsn, if_pos h10, if_pos hpre, StepRes.acts]
        · cases p <;> simp [watchStep, hcl, hsn, if_pos h10, if_pos hpre, StepRes.acts]
      · simp [watchStep, hcl, if_neg h10, if_pos hpre, StepRes.acts]
  · intro es elast re2 bi bm c srest rest hlen hall hlast
    have hmap : (es ++ [elast]).map NextOutcome.err ++ rest =
        es.map NextOutcome.err ++ (NextOutcome.err elast :: rest) := by
      simp
    rw [hmap]
    apply watchIter_unknown_skip es ⟨⟨bi, bm, 0⟩, ProbeOutcome.got re2 :: srest, c⟩
      (NextOutcome.err elast :: rest) _ hall (by show 0 + es.length ≤ 10; omega)
    rw [hlen]
    have hstep := watchStep_unknown_gt10_got elast
      ⟨⟨bi, bm, 0 + 10⟩, ProbeOutcome.got re2 :: srest, c⟩ re2 srest hlast
      (by show (10 : Nat) < 0 + 10 + 1; omega) rfl
    simp only [watchIter, hstep]
    apply List.mem_append.mpr
    left
    apply List.mem_append.mpr
    right
    simp

/-- C4 witness: a generic error is unknown; with the try counter at 3 the
sleep of the third backoff delay is among the step's actions. -/
theorem watch_unknown_error_policy_witness :
    classifyWatchErr (EtcdErr.other "boom") = ErrClass.unknown ∧
    1 ≤ (⟨⟨50000000, 10000000000, 3⟩, [], 0⟩ : WState).backoff.tries ∧
    Act.sleep ((⟨50000000, 10000000000, 3⟩ : Backoff).delay).1 ∈
      (watchStep (NextOutcome.err (EtcdErr.other "boom"))
        ⟨⟨50000000, 10000000000, 3⟩, [], 0⟩).acts :=
  ⟨rfl, by decide,
    (watch_unknown_error_policy.1 (EtcdErr.other "boom")
      ⟨⟨50000000, 10000000000, 3⟩, [], 0⟩ rfl).2.2 (by decide)⟩

/-- C8 counterexample: after a compaction (`EventIndexCleared`) the
re-snapshot's value is sent unfiltered, so a key currently holding the
empty string makes the watcher emit `""`. -/
theorem watch_emits_empty_on_resnapshot :
    sends (addWatchRun
      [NextOutcome.err (EtcdErr.clientErr ErrorCodeEventIndexCleared "compacted")]
      [ProbeOutcome.got ⟨⟨"x", 1, 0⟩⟩, ProbeOutcome.got ⟨⟨"", 9, 0⟩⟩]).1 = [""] :=
  rfl

/-- C8 amended: an event from `watcher.Next` carrying the empty value is
skipped with no emission and no other effect, and every value the loop
sends is non-empty unless it is the current value of a re-snapshot taken
after a compaction. -/
theorem watch_empty_filter_policy :
    (∀ (re : Response) (rest : List NextOutcome) (s : WState),
      re.node.value = "" →
      watchIter (NextOutcome.ok re :: rest) s = watchIter rest s) ∧
    (∀ (nexts : List NextOutcome) (s : WState) (v : String),
      Act.send v ∈ (watchIter nexts s).1 →
      v ≠ "" ∨ ∃ re, ProbeOutcome.got re ∈ s.snaps ∧ re.node.value = v) := by
  constructor
  · intro re rest s h
    simp [watchIter, watchStep, h]
  · intro nexts
    induction nexts with
    | nil =>
      intro s v hv
      simp [watchIter] at hv
    | cons n rest ih =>
      intro s v hv
      rcases hstep : watchStep n s with ⟨acts, s2⟩ | ⟨acts, e⟩
      · simp only [watchIter, hstep] at hv
        rcases List.mem_append.mp hv with h | h
        · have hm : Act.send v ∈ (watchStep n s).acts := by
            rw [hstep]
            exact h
          exact watchStep_send_sound n s v hm
        · rcases ih s2 v h with h2 | ⟨re, hre, hval⟩
          · exact Or.inl h2
          · exact Or.inr ⟨re, watchStep_snaps_mono n s acts s2 hstep _ hre, hval⟩
      · simp only [watchIter, hstep] at hv
        have hm : Act.send v ∈ (watchStep n s).acts := by
          rw [hstep]
          exact hv
        exact watchStep_send_sound n s v hm

/-- C8 witness: an empty-valued event is skipped without emission. -/
theorem watch_empty_filter_policy_witness :
    (⟨⟨"", 1, 0⟩⟩ : Response).node.value = "" ∧
    watchIter [NextOutcome.ok ⟨⟨"", 1, 0⟩⟩] ⟨watchBackoff, [], 0⟩ =
      watchIter [] ⟨watchBackoff, [], 0⟩ :=
  ⟨rfl, watch_empty_filter_policy.1 ⟨⟨"", 1, 0⟩⟩ [] ⟨watchBackoff, [], 0⟩ rfl⟩

/-- C10: on `EventIndexCleared`, a successful re-snapshot re-creates the
watch at the snapshot's revision and falls through to send the snapshot's
current value (even if already emitted before); a failed re-snapshot
emits nothing and the loop continues. -/
theorem watch_index_cleared_resnapshot_emit :
    (∀ (m : String) (s : WState) (re2 : Response) srest rest,
      s.snaps = ProbeOutcome.got re2 :: srest →
      sends (watchIter
        (NextOutcome.err (EtcdErr.clientErr ErrorCodeEventIndexCleared m) :: rest) s).1 =
        re2.node.value ::
          sends (watchIter rest ⟨(s.backoff.delay).2, srest, re2.node.modifiedIndex⟩).1) ∧
    (∀ (m : String) (s : WState) (e2 : EtcdErr) srest rest,
      s.snaps = ProbeOutcome.failed e2 :: srest →
      sends (watchIter
        (NextOutcome.err (EtcdErr.clientErr ErrorCodeEventIndexCleared m) :: rest) s).1 =
        sends (watchIter rest ⟨(s.backoff.delay).2, srest, s.cursor⟩).1) := by
  constructor
  · intro m s re2 srest rest hs
    simp only [watchIter, watchStep_indexCleared_got m s re2 srest hs]
    rw [sends_append, sends_append, sends_sleepPre]
    rfl
  · intro m s e2 srest rest hs
    simp only [watchIter, watchStep_indexCleared_failed m s e2 srest hs]
    rw [sends_append, sends_sleepPre]
    rfl

/-- C10 witness: compaction with current value `"A"` at revision 7 makes
the watcher emit `"A"` again. -/
theorem watch_index_cleared_resnapshot_emit_witness :
    (⟨watchBackoff, [ProbeOutcome.got ⟨⟨"A", 7, 0⟩⟩], 3⟩ : WState).snaps =
      ProbeOutcome.got ⟨⟨"A", 7, 0⟩⟩ :: [] ∧
    sends (watchIter
      [NextOutcome.err (EtcdErr.clientErr ErrorCodeEventIndexCleared "c")]
      ⟨watchBackoff, [ProbeOutcome.got ⟨⟨"A", 7, 0⟩⟩], 3⟩).1 = ["A"] :=
  ⟨rfl, by
    rw [watch_index_cleared_resnapshot_emit.1 "c"
      ⟨watchBackoff, [ProbeOutcome.got ⟨⟨"A", 7, 0⟩⟩], 3⟩ ⟨⟨"A", 7, 0⟩⟩ [] [] rfl]
    rfl⟩
